import Mathlib

/-!
Verification of the process handoff and status-tracking model of
`src/aps_demo.py` (class `APSCommandDemo`): role assignment (`aps_init`),
process creation (`aps_start`), handoff between roles (`aps_handoff`) and
status aggregation (`aps_status`).

The registry state is the base directory: the role-assignment ledger file
(`.claude_role_assignment`, a list of raw text lines, `none` when the file is
absent) together with the directory's files in listing order, each file
holding either a parsed YAML document or unparseable text.  Python `dict`s are
modelled as insertion-ordered association lists; Python indexing / membership
on arbitrary values is modelled by `Option`-valued functions where `none`
stands for the raised exception.
-/

namespace APS

/-! ### Python string primitives, modelled charwise -/

/-- Chars `p` form an initial segment of chars `l`. -/
def prefixChars : List Char → List Char → Bool
  | [], _ => true
  | _ :: _, [] => false
  | a :: as, b :: bs => a == b && prefixChars as bs

/-- Substring occurrence on char lists: Python `needle in hay`. -/
def subChars (needle : List Char) : List Char → Bool
  | [] => prefixChars needle []
  | c :: t => prefixChars needle (c :: t) || subChars needle t

/-- Python `sub in s` on strings. -/
def containsSub (s sub : String) : Bool := subChars sub.data s.data

/-- Python `s.startswith(p)`. -/
def startsWithStr (s p : String) : Bool := prefixChars p.data s.data

/-- Python `s.endswith(p)`. -/
def endsWithStr (s p : String) : Bool := prefixChars p.data.reverse s.data.reverse

/-- Python `s.lower()` (ASCII). -/
def lowerStr (s : String) : String := ⟨s.data.map Char.toLower⟩

/-- Python `s.replace(' ', '_')`: a single-char pattern replaced by a
single-char replacement acts on each character independently. -/
def normName (s : String) : String :=
  ⟨s.data.map (fun c => if c == ' ' then '_' else c)⟩

/-- Python `s.strip()`: drop leading and trailing whitespace. -/
def pyStrip (s : String) : String :=
  ⟨((s.data.dropWhile Char.isWhitespace).reverse.dropWhile Char.isWhitespace).reverse⟩

/-- Split a char list at every occurrence of `c`; Python `s.split(c)`
(so `"".split(c) = [""]` and separators at the ends yield empty fields). -/
def splitChar (c : Char) : List Char → List (List Char)
  | [] => [[]]
  | x :: xs =>
    match splitChar c xs with
    | [] => [[]]
    | h :: t => if x == c then [] :: h :: t else (x :: h) :: t

/-- Python `s.split(c)` on strings. -/
def pySplit (c : Char) (s : String) : List String :=
  (splitChar c s.data).map (fun cs => ⟨cs⟩)

/-! ### YAML documents and Python dict semantics -/

/-- A YAML value as `yaml.safe_load` produces it: string scalar, mapping
(insertion-ordered, as a Python `dict`), sequence, or `None`. -/
inductive Yaml where
  | str (s : String)
  | map (entries : List (String × Yaml))
  | list (items : List Yaml)
  | null

/-- A stored file: a document that YAML-parses, or unparseable text
(on which `yaml.safe_load` raises). -/
inductive Doc where
  | yaml (v : Yaml)
  | malformed

/-- Python dict lookup on an association list (first binding wins;
dicts built by the code below keep keys unique). -/
def lookupList : List (String × Yaml) → String → Option Yaml
  | [], _ => none
  | (k', v) :: rest, k => if k' = k then some v else lookupList rest k

/-- Python dict assignment `d[k] = v`: replace the existing binding in place,
else append the new binding at the end (insertion order). -/
def mapSet : List (String × Yaml) → String → Yaml → List (String × Yaml)
  | [], k, v => [(k, v)]
  | (k', v') :: rest, k, v =>
    if k' = k then (k, v) :: rest else (k', v') :: mapSet rest k v

/-- Python `d[k]` for a string key `k`: a key lookup on a dict (`none` for
`KeyError`); on a string, list or `None` a `TypeError` (`none`). -/
def pyIndex : Yaml → String → Option Yaml
  | .map es, k => lookupList es k
  | _, _ => none

/-- Python `k in v` for a string `k`: key membership on a dict, substring
test on a string, element membership on a list (a string element equal to
`k`), and a `TypeError` (`none`) on `None`. -/
def pyContains : Yaml → String → Option Bool
  | .map es, k => some (lookupList es k).isSome
  | .str s, k => some (containsSub s k)
  | .list l, k =>
    some (l.any (fun e => match e with | .str t => t == k | _ => false))
  | .null, _ => none

/-! ### The registry state -/

/-- The shared state `aps_demo.py` operates on: the role-assignment ledger
(`none` when the file is missing) and the base directory's files in listing
order. -/
structure RegistryState where
  roleFile : Option (List String)
  files : List (String × Doc)

/-- Read the file named `n` (first entry with that name). -/
def readFile : List (String × Doc) → String → Option Doc
  | [], _ => none
  | (n', d) :: rest, n => if n' = n then some d else readFile rest n

/-- Write document `d` to file name `n`: overwrite the existing entry in
place, else create the file at the end of the listing. -/
def writeFile : List (String × Doc) → String → Doc → List (String × Doc)
  | [], n, d => [(n, d)]
  | (n', d') :: rest, n, d =>
    if n' = n then (n, d) :: rest else (n', d') :: writeFile rest n d

/-! ### `aps_init` (src/aps_demo.py lines 17-54)

Reads the role file (early `return` on `FileNotFoundError`), scans for
`*.aps.yaml` files, picks `PM_Agent` when there are none and
`Developer_Agent` otherwise, mints `session_id = "claude_" + timestamp` and
returns `(role, session_id)`.  The assignment string is printed but never
written anywhere, so the state is returned unchanged. -/

/-- `aps_init`, with `now` the integer timestamp `int(datetime.now().timestamp())`.
Returns the `(role, session_id)` pair (`none` when the role file is missing)
and the resulting registry state. -/
def aps_init (s : RegistryState) (now : Nat) : Option (String × String) × RegistryState :=
  match s.roleFile with
  | none => (none, s)
  | some _ =>
    let apsFiles := s.files.filter (fun p => endsWithStr p.1 ".aps.yaml")
    let role := if apsFiles.isEmpty then "PM_Agent" else "Developer_Agent"
    let sessionId := "claude_" ++ toString now
    (some (role, sessionId), s)

/-! ### `aps_start` (src/aps_demo.py lines 56-82)

`process_id = f"001_{process_name.replace(' ', '_')}"`; loads
`aps_template.yaml`, overwrites `process.name/id/created_at/status`, writes
the customized template to `<process_id>_requirements.aps.yaml` and returns
`(process_id, filename)`.  A missing or unusable template raises (uncaught). -/

/-- The process id `aps_start` allocates for a display name. -/
def aps_process_id (name : String) : String := "001_" ++ normName name

/-- Result of `aps_start`: the returned pair, or `crashed` when an uncaught
exception is raised (missing template, template without a `process` mapping). -/
inductive StartResult where
  | crashed
  | ok (processId filename : String)
deriving DecidableEq

/-- `aps_start`, with `nowIso` for `datetime.now().isoformat()` (the code
stores `nowIso + "Z"` as `created_at`). -/
def aps_start (s : RegistryState) (name nowIso : String) : StartResult × RegistryState :=
  let processId := aps_process_id name
  let filename := processId ++ "_requirements.aps.yaml"
  match readFile s.files "aps_template.yaml" with
  | none => (.crashed, s)
  | some .malformed => (.crashed, s)
  | some (.yaml (.map es)) =>
    match lookupList es "process" with
    | some (.map pes) =>
      let pes := mapSet pes "name" (.str name)
      let pes := mapSet pes "id" (.str processId)
      let pes := mapSet pes "created_at" (.str (nowIso ++ "Z"))
      let pes := mapSet pes "status" (.str "requirements_gathering")
      let doc := Doc.yaml (.map (mapSet es "process" (.map pes)))
      (.ok processId filename, { s with files := writeFile s.files filename doc })
    | _ => (.crashed, s)
  | some (.yaml _) => (.crashed, s)

/-! ### `aps_handoff` (src/aps_demo.py lines 84-125)

Filters the listing to files starting with `process_id` and ending in
`.aps.yaml`; on no match prints an error and returns with nothing written.
Otherwise takes the first match, loads it, appends a handoff message to
`process.messages` (creating the list when the key is absent), sets
`process.status = "waiting_for_" + target_role.lower()` and
`process.updated_at`, and writes the file back.  Exceptions (unparseable
file, document without a `process` mapping, non-list `messages`) are
uncaught, and occur before the write-back. -/

/-- The `new_message` dict built by `aps_handoff` (keys in construction
order); `from` is the hardcoded string `'Current_Agent'`. -/
def handoffMessage (pid target nowIso filename : String) : Yaml :=
  .map [("from", .str "Current_Agent"),
        ("to", .str target),
        ("timestamp", .str (nowIso ++ "Z")),
        ("subject", .str ("Handoff for " ++ pid)),
        ("content", .str ("Process ready for " ++ target ++ " to begin work")),
        ("artifacts", .list [.map [("path", .str filename),
                                   ("type", .str "handoff"),
                                   ("status", .str "ready")]])]

/-- The read-modify step of `aps_handoff` on the matched document; `none`
when an exception is raised.  The Python pair
`if 'messages' not in P: P['messages'] = []` followed by
`P['messages'].append(msg)` yields `[msg]` for an absent key, `old ++ [msg]`
for a list, and an `AttributeError` on any other value. -/
def handoffDoc (d : Doc) (pid target nowIso fn : String) : Option Doc :=
  match d with
  | .malformed => none
  | .yaml (.map es) =>
    match lookupList es "process" with
    | some (.map pm) =>
      match lookupList pm "messages" with
      | some (.list msgs) =>
        let pm := mapSet pm "messages"
          (.list (msgs ++ [handoffMessage pid target nowIso fn]))
        let pm := mapSet pm "status" (.str ("waiting_for_" ++ lowerStr target))
        let pm := mapSet pm "updated_at" (.str (nowIso ++ "Z"))
        some (.yaml (.map (mapSet es "process" (.map pm))))
      | none =>
        let pm := mapSet pm "messages" (.list [handoffMessage pid target nowIso fn])
        let pm := mapSet pm "status" (.str ("waiting_for_" ++ lowerStr target))
        let pm := mapSet pm "updated_at" (.str (nowIso ++ "Z"))
        some (.yaml (.map (mapSet es "process" (.map pm))))
      | some _ => none
    | _ => none
  | .yaml _ => none

/-- Outcome of `aps_handoff`: the "No APS file found" early return, an
uncaught exception, or success on the named file. -/
inductive HandoffOutcome where
  | notFound
  | crashed
  | ok (filename : String)
deriving DecidableEq

/-- The filter `aps_handoff` applies to the directory listing. -/
def handoffMatch (pid : String) (p : String × Doc) : Bool :=
  startsWithStr p.1 pid && endsWithStr p.1 ".aps.yaml"

/-- `aps_handoff`, with `nowIso` for `datetime.now().isoformat()`. -/
def aps_handoff (s : RegistryState) (pid target nowIso : String) :
    HandoffOutcome × RegistryState :=
  match (s.files.filter (handoffMatch pid)).head? with
  | none => (.notFound, s)
  | some (fn, d) =>
    match handoffDoc d pid target nowIso fn with
    | none => (.crashed, s)
    | some d' => (.ok fn, { s with files := writeFile s.files fn d' })

/-! ### `aps_status` (src/aps_demo.py lines 127-169)

Agents: each role-file line containing `':'` and the substring `'active'`
whose stripped form splits into at least 4 colon-fields contributes
`(role, session, status)` = fields 2..4; a missing role file (or any other
exception) yields the empty agent list.  Processes: every `*.aps.yaml` file
is reported; a per-file `try` turns any exception into a parse-error line;
the display status is `process.status`, else `claim.status`, else
`"unknown"`. -/

/-- The contribution of one ledger line to the active-agent list
(the body of the `for line in lines` loop). -/
def agentOfLine (line : String) : Option (String × String × String) :=
  if containsSub line ":" && containsSub line "active" then
    let parts := pySplit ':' (pyStrip line)
    if 4 ≤ parts.length then
      some (parts.getD 1 "", parts.getD 2 "", parts.getD 3 "")
    else none
  else none

/-- The `active_agents` list `aps_status` builds. -/
def statusAgents (s : RegistryState) : List (String × String × String) :=
  match s.roleFile with
  | none => []
  | some lines =>
    lines.foldl (fun acc line =>
      match agentOfLine line with
      | some a => acc ++ [a]
      | none => acc) []

/-- One line of the per-process report: a resolved `(name, status)` pair or
the `(parse error)` marker naming the file. -/
inductive ReportEntry where
  | ok (name status : Yaml)
  | parseError (filename : String)

/-- The report line for one `*.aps.yaml` file, following the `try` body:
any raised exception (modelled by the `none`s of `pyIndex`/`pyContains`)
becomes `parseError`. -/
def resolveDoc (filename : String) (d : Doc) : ReportEntry :=
  match d with
  | .malformed => .parseError filename
  | .yaml v =>
    match pyIndex v "process" with
    | none => .parseError filename
    | some proc =>
      match pyIndex proc "name" with
      | none => .parseError filename
      | some nm =>
        match pyContains proc "status" with
        | none => .parseError filename
        | some true =>
          match pyIndex proc "status" with
          | none => .parseError filename
          | some st => .ok nm st
        | some false =>
          match pyContains v "claim" with
          | none => .parseError filename
          | some false => .ok nm (.str "unknown")
          | some true =>
            match pyIndex v "claim" with
            | none => .parseError filename
            | some cl =>
              match pyContains cl "status" with
              | none => .parseError filename
              | some false => .ok nm (.str "unknown")
              | some true =>
                match pyIndex cl "status" with
                | none => .parseError filename
                | some st => .ok nm st

/-- The per-process section of `aps_status`: one entry per `*.aps.yaml`
file, in listing order. -/
def statusProcesses (s : RegistryState) : List ReportEntry :=
  (s.files.filter (fun p => endsWithStr p.1 ".aps.yaml")).map
    (fun p => resolveDoc p.1 p.2)

/-- `aps_status`: the structured content of the printed report. -/
def aps_status (s : RegistryState) :
    List (String × String × String) × List ReportEntry :=
  (statusAgents s, statusProcesses s)

/-! ### Observers used to state properties -/

/-- The top-level mapping of the document stored at file `fn`. -/
def docMapAt (s : RegistryState) (fn : String) : Option (List (String × Yaml)) :=
  match readFile s.files fn with
  | some (.yaml (.map es)) => some es
  | _ => none

/-- The `process` mapping of the document stored at file `fn`. -/
def procMapAt (s : RegistryState) (fn : String) : Option (List (String × Yaml)) :=
  match docMapAt s fn with
  | some es =>
    match lookupList es "process" with
    | some (.map pm) => some pm
    | _ => none
  | none => none

/-- A field of a message mapping. -/
def msgField (m : Yaml) (k : String) : Option Yaml :=
  match m with
  | .map es => lookupList es k
  | _ => none

/-- The message list of a `process` mapping as `aps_handoff` sees it:
`[]` when the key is absent, the list when it holds one, `none` (the
operation raises) otherwise. -/
def oldMessages (pm : List (String × Yaml)) : Option (List Yaml) :=
  match lookupList pm "messages" with
  | none => some []
  | some (.list l) => some l
  | some _ => none

/-! ### Shared lemmas on the dict and file-store primitives -/

/-- Setting a key makes it readable. -/
theorem lookup_mapSet_self (es : List (String × Yaml)) (k : String) (v : Yaml) :
    lookupList (mapSet es k v) k = some v := by
  induction es with
  | nil => simp [mapSet, lookupList]
  | cons p rest ih =>
    obtain ⟨k', v'⟩ := p
    by_cases h : k' = k
    · simp [mapSet, h, lookupList]
    · simp [mapSet, h, lookupList, ih]

/-- Setting a key leaves every other key unread. -/
theorem lookup_mapSet_ne (es : List (String × Yaml)) (k k' : String) (v : Yaml)
    (h : k' ≠ k) : lookupList (mapSet es k v) k' = lookupList es k' := by
  induction es with
  | nil => simp [mapSet, lookupList, Ne.symm h]
  | cons p rest ih =>
    obtain ⟨k₀, v₀⟩ := p
    by_cases h₀ : k₀ = k
    · subst h₀
      simp [mapSet, lookupList, Ne.symm h]
    · simp [mapSet, h₀, lookupList, ih]

/-- Writing a file makes its content readable. -/
theorem readFile_writeFile_self (fs : List (String × Doc)) (n : String) (d : Doc) :
    readFile (writeFile fs n d) n = some d := by
  induction fs with
  | nil => simp [writeFile, readFile]
  | cons p rest ih =>
    obtain ⟨n', d'⟩ := p
    by_cases h : n' = n
    · simp [writeFile, h, readFile]
    · simp [writeFile, h, readFile, ih]

/-- Writing a file leaves every other file unread. -/
theorem readFile_writeFile_ne (fs : List (String × Doc)) (n n' : String) (d : Doc)
    (h : n' ≠ n) : readFile (writeFile fs n d) n' = readFile fs n' := by
  induction fs with
  | nil => simp [writeFile, readFile, Ne.symm h]
  | cons p rest ih =>
    obtain ⟨n₀, d₀⟩ := p
    by_cases h₀ : n₀ = n
    · subst h₀
      simp [writeFile, readFile, Ne.symm h]
    · simp [writeFile, h₀, readFile, ih]

/-- Writing to a name that occurs once, past entries that do not bear it,
replaces exactly that entry. -/
theorem writeFile_middle (pre post : List (String × Doc)) (n : String) (d d' : Doc)
    (hpre : ∀ p ∈ pre, p.1 ≠ n) :
    writeFile (pre ++ (n, d) :: post) n d' = pre ++ (n, d') :: post := by
  induction pre with
  | nil => simp [writeFile]
  | cons a t ih =>
    have ha : a.1 ≠ n := hpre a (List.mem_cons_self a t)
    obtain ⟨n₀, d₀⟩ := a
    simp only [List.cons_append, writeFile, if_neg ha]
    exact congrArg _ (ih (fun p hp => hpre p (List.mem_cons_of_mem _ hp)))

/-- The first element a filter keeps, when everything before it is dropped. -/
theorem filter_head_first {α : Type} (q : α → Bool) (pre post : List α) (x : α)
    (hpre : ∀ p ∈ pre, q p = false) (hx : q x = true) :
    ((pre ++ x :: post).filter q).head? = some x := by
  induction pre with
  | nil => simp [List.filter_cons, hx]
  | cons a t ih =>
    have ha : q a = false := hpre a (List.mem_cons_self a t)
    simp only [List.cons_append, List.filter_cons, ha]
    simp only [Bool.false_eq_true, if_false]
    exact ih (fun p hp => hpre p (List.mem_cons_of_mem _ hp))

/-! ### Claim C1 — uniqueness of allocated process ids -/

/-- A base directory holding only the process template, as `aps_start`
requires. -/
def tmplState : RegistryState :=
  ⟨some [], [("aps_template.yaml", .yaml (.map [("process",
      .map [("name", .str "template"), ("id", .str "template"),
            ("created_at", .str "template"), ("status", .str "template")])]))]⟩

/-- Claim C1, counterexample: two `aps_start` calls with the distinct
non-empty display names `"A B"` and `"A_B"` both return the process id
`"001_A_B"`, and the second id equals the id of the record the first call
persisted — the prefix is the constant `001`, not a monotonic counter, so
returned ids are not pairwise distinct. -/
theorem aps_start_id_collision :
    (aps_start tmplState "A B" "T").1 = .ok "001_A_B" "001_A_B_requirements.aps.yaml" ∧
    (aps_start (aps_start tmplState "A B" "T").2 "A_B" "T").1
      = .ok "001_A_B" "001_A_B_requirements.aps.yaml" ∧
    ("A B" : String) ≠ "A_B" := by
  refine ⟨rfl, rfl, by decide⟩

/-- Claim C1, amended: `aps_start` derives the process id deterministically
as `"001_"` plus the display name with spaces replaced by underscores, so
two calls return distinct process ids exactly when the normalized names
differ (in particular, reusing a name — or names that normalize alike —
reuses the id). -/
theorem aps_start_id_distinct_iff (n₁ n₂ : String) :
    aps_process_id n₁ = aps_process_id n₂ ↔ normName n₁ = normName n₂ := by
  constructor
  · intro h
    have hd := congrArg String.data h
    rw [aps_process_id, aps_process_id, String.data_append, String.data_append] at hd
    exact String.ext (List.append_cancel_left hd)
  · intro h
    simp [aps_process_id, h]

/-! ### Claim C5 — handoff on an unknown process id -/

/-- Claim C5: when no stored file name both starts with `process_id` and ends
in `.aps.yaml` (no ProcessRecord exists for it), `aps_handoff` reports
not-found and returns the registry state unchanged — no record is created or
modified and no ledger entry is added. -/
theorem handoff_unknown_pid_fails (s : RegistryState) (pid target nowIso : String)
    (h : ∀ p ∈ s.files, handoffMatch pid p = false) :
    aps_handoff s pid target nowIso = (.notFound, s) := by
  have hf : s.files.filter (handoffMatch pid) = [] :=
    List.filter_eq_nil_iff.mpr (fun a ha => by simp [h a ha])
  simp [aps_handoff, hf]

/-- A registry with one unrelated file and a one-line ledger. -/
def c5State : RegistryState := ⟨some ["0:PM_Agent:claude_0:active"], [("notes.txt", .malformed)]⟩

/-- Claim C5, witness: the not-found hypothesis holds for `c5State` and pid
`001_X`, and the handoff leaves the state untouched. -/
theorem handoff_unknown_pid_fails_witness :
    (∀ p ∈ c5State.files, handoffMatch "001_X" p = false) ∧
    aps_handoff c5State "001_X" "Architect_Agent" "T" = (.notFound, c5State) :=
  ⟨by decide, handoff_unknown_pid_fails c5State "001_X" "Architect_Agent" "T" (by decide)⟩

/-! ### Claim C6 — role assignment policy of `aps_init` -/

/-- Claim C6: with the ledger present, `aps_init` returns the PM role
(`"PM_Agent"`) when zero process records (`*.aps.yaml` files) exist, and the
Developer role (`"Developer_Agent"`) when at least one exists. -/
theorem aps_init_role_policy (s : RegistryState) (L : List String) (now : Nat)
    (h : s.roleFile = some L) :
    ((∀ p ∈ s.files, endsWithStr p.1 ".aps.yaml" = false) →
      (aps_init s now).1 = some ("PM_Agent", "claude_" ++ toString now)) ∧
    ((∃ p ∈ s.files, endsWithStr p.1 ".aps.yaml" = true) →
      (aps_init s now).1 = some ("Developer_Agent", "claude_" ++ toString now)) := by
  constructor
  · intro hall
    have hf : s.files.filter (fun p => endsWithStr p.1 ".aps.yaml") = [] :=
      List.filter_eq_nil_iff.mpr (fun a ha => by simp [hall a ha])
    simp [aps_init, h, hf]
  · rintro ⟨p, hp, hpred⟩
    have hmem : p ∈ s.files.filter (fun p => endsWithStr p.1 ".aps.yaml") :=
      List.mem_filter.mpr ⟨hp, hpred⟩
    have hne : s.files.filter (fun p => endsWithStr p.1 ".aps.yaml") ≠ [] := by
      intro hnil
      rw [hnil] at hmem
      exact absurd hmem (List.not_mem_nil p)
    have hfe : (s.files.filter (fun p => endsWithStr p.1 ".aps.yaml")).isEmpty = false := by
      cases hfe : (s.files.filter (fun p => endsWithStr p.1 ".aps.yaml")).isEmpty
      · rfl
      · exact absurd (List.isEmpty_iff.mp hfe) hne
    simp [aps_init, h, hfe]

/-- A registry with one process record and a present (empty) ledger. -/
def c6State : RegistryState :=
  ⟨some [], [("001_X_requirements.aps.yaml", .yaml (.map [("process", .map [("name", .str "X")])]))]⟩

/-- Claim C6, witness: the ledger-present hypothesis holds for `c6State`,
which has one process record, and `aps_init` assigns the Developer role
there (the record `("001_X_requirements.aps.yaml", …)` discharging the
at-least-one premise). -/
theorem aps_init_role_policy_witness :
    c6State.roleFile = some [] ∧
    ((∀ p ∈ c6State.files, endsWithStr p.1 ".aps.yaml" = false) →
      (aps_init c6State 7).1 = some ("PM_Agent", "claude_" ++ toString 7)) ∧
    ((∃ p ∈ c6State.files, endsWithStr p.1 ".aps.yaml" = true) →
      (aps_init c6State 7).1 = some ("Developer_Agent", "claude_" ++ toString 7)) :=
  ⟨rfl, aps_init_role_policy c6State [] 7 rfl⟩

/-! ### Claim C2 — `aps_init` and the ledger -/

/-- A registry whose ledger holds exactly one assignment line. -/
def c2State : RegistryState := ⟨some ["0:PM_Agent:claude_0:active"], []⟩

/-- Claim C2, counterexample: on a present one-line ledger, `aps_init`
returns the `(role, session_id)` pair but the resulting state is identical
to the input — the ledger still holds exactly 1 line, not the 2 the claimed
one-entry growth demands.  The assignment string is only printed, never
written. -/
theorem aps_init_ledger_not_appended :
    aps_init c2State 5 = (some ("PM_Agent", "claude_5"), c2State) ∧
    ((aps_init c2State 5).2.roleFile.map List.length) = some 1 :=
  ⟨rfl, rfl⟩

/-- Claim C2, amended: every call to `aps_init` that finds the ledger present
mints `session_id = "claude_" + timestamp` and returns `(role, session_id)`,
but appends nothing: the registry state — the ledger included — is returned
unchanged. -/
theorem aps_init_returns_pair_state_unchanged (s : RegistryState) (L : List String)
    (now : Nat) (h : s.roleFile = some L) :
    ∃ role, aps_init s now = (some (role, "claude_" ++ toString now), s) := by
  refine ⟨if (s.files.filter (fun p => endsWithStr p.1 ".aps.yaml")).isEmpty then
    "PM_Agent" else "Developer_Agent", ?_⟩
  simp [aps_init, h]

/-- Claim C2, witness: the ledger-present hypothesis holds for `c2State` and
`aps_init` at timestamp 9 returns the minted pair with the state unchanged. -/
theorem aps_init_returns_pair_state_unchanged_witness :
    c2State.roleFile = some ["0:PM_Agent:claude_0:active"] ∧
    ∃ role, aps_init c2State 9 = (some (role, "claude_" ++ toString 9), c2State) :=
  ⟨rfl, aps_init_returns_pair_state_unchanged c2State ["0:PM_Agent:claude_0:active"] 9 rfl⟩

/-! ### Claim C3 — which ledger lines count as active agents -/

/-- A ledger with one `active` and one `inactive` assignment. -/
def c3State : RegistryState :=
  ⟨some ["1:PM_Agent:s1:active", "2:Dev_Agent:s2:inactive"], []⟩

/-- Claim C3, counterexample: the entry whose status field is `"inactive"`
appears in the active-agent list — the code tests `'active' in line`, a
substring check that the word `inactive` also passes — refuting the claimed
exclusion of `inactive` entries. -/
theorem statusAgents_includes_inactive :
    statusAgents c3State = [("PM_Agent", "s1", "active"), ("Dev_Agent", "s2", "inactive")] := by
  decide

/-- The loop of `aps_status` over ledger lines collects exactly the per-line
contributions, in order. -/
theorem statusAgents_eq_filterMap (fs : List (String × Doc)) (lines : List String) :
    statusAgents ⟨some lines, fs⟩ = lines.filterMap agentOfLine := by
  have key : ∀ (ls : List String) (acc : List (String × String × String)),
      ls.foldl (fun acc line =>
        match agentOfLine line with
        | some a => acc ++ [a]
        | none => acc) acc = acc ++ ls.filterMap agentOfLine := by
    intro ls
    induction ls with
    | nil => intro acc; simp
    | cons l t ih =>
      intro acc
      cases h : agentOfLine l with
      | none => simp [h, List.filterMap_cons, ih]
      | some a => simp [h, List.filterMap_cons, ih]
  simpa using key lines []

/-- The per-line selection of `aps_status`, spelled out. -/
theorem agentOfLine_eq_some_iff (l : String) (x : String × String × String) :
    agentOfLine l = some x ↔
      containsSub l ":" = true ∧ containsSub l "active" = true ∧
      4 ≤ (pySplit ':' (pyStrip l)).length ∧
      x = ((pySplit ':' (pyStrip l)).getD 1 "", (pySplit ':' (pyStrip l)).getD 2 "",
           (pySplit ':' (pyStrip l)).getD 3 "") := by
  unfold agentOfLine
  by_cases h1 : (containsSub l ":" && containsSub l "active") = true
  · rw [if_pos h1]
    rw [Bool.and_eq_true] at h1
    by_cases h2 : 4 ≤ (pySplit ':' (pyStrip l)).length
    · rw [if_pos h2]
      simp [h1.1, h1.2, h2, eq_comm]
    · rw [if_neg h2]
      simp [h2]
  · rw [if_neg h1]
    rw [Bool.and_eq_true] at h1
    constructor
    · intro hx
      exact absurd hx (by simp)
    · rintro ⟨ha, hb, -, -⟩
      exact absurd ⟨ha, hb⟩ h1

/-- Claim C3, amended: the active-agent list contains exactly the (images
of the) ledger lines that contain a colon and the substring `active`
anywhere in the line — a test that status `inactive` also passes — and whose
stripped form splits into at least four colon-separated fields, reported as
fields 2–4 `(role, session, status)`; lines failing these checks are skipped
and the operation never raises. -/
theorem statusAgents_mem_iff (fs : List (String × Doc)) (lines : List String)
    (x : String × String × String) :
    x ∈ statusAgents ⟨some lines, fs⟩ ↔
      ∃ l ∈ lines, containsSub l ":" = true ∧ containsSub l "active" = true ∧
        4 ≤ (pySplit ':' (pyStrip l)).length ∧
        x = ((pySplit ':' (pyStrip l)).getD 1 "", (pySplit ':' (pyStrip l)).getD 2 "",
             (pySplit ':' (pyStrip l)).getD 3 "") := by
  rw [statusAgents_eq_filterMap, List.mem_filterMap]
  constructor
  · rintro ⟨l, hl, hx⟩
    exact ⟨l, hl, (agentOfLine_eq_some_iff l x).mp hx⟩
  · rintro ⟨l, hl, hcond⟩
    exact ⟨l, hl, (agentOfLine_eq_some_iff l x).mpr hcond⟩

/-! ### Claim C7 — malformed documents are isolated in `status_report` -/

/-- Claim C7: corrupting one stored process document does not make
`aps_status` raise and does not disturb the rest of the report: the
per-process section equals the reports of the records before it, then the
parse-error marker naming the corrupted file, then the reports of the
records after it — each exactly as it would be on its own. -/
theorem status_report_isolates_malformed (rf : Option (List String))
    (pre post : List (String × Doc)) (fn : String)
    (h : endsWithStr fn ".aps.yaml" = true) :
    statusProcesses ⟨rf, pre ++ (fn, Doc.malformed) :: post⟩
      = statusProcesses ⟨rf, pre⟩ ++ ReportEntry.parseError fn :: statusProcesses ⟨rf, post⟩ := by
  simp [statusProcesses, List.filter_append, List.filter_cons, h, resolveDoc]

/-- Two well-formed process documents, used around a corrupted one. -/
def goodDocA : String × Doc :=
  ("001_A_requirements.aps.yaml",
   .yaml (.map [("process", .map [("name", .str "A"), ("status", .str "requirements_gathering")])]))

/-- Second well-formed process document. -/
def goodDocB : String × Doc :=
  ("002_B_requirements.aps.yaml",
   .yaml (.map [("process", .map [("name", .str "B"), ("status", .str "done")])]))

/-- Claim C7, witness: with a corrupted document between two valid ones, the
suffix hypothesis holds and the report is the valid entries around the
parse-error marker. -/
theorem status_report_isolates_malformed_witness :
    endsWithStr "001_bad_requirements.aps.yaml" ".aps.yaml" = true ∧
    statusProcesses ⟨some [], [goodDocA] ++ ("001_bad_requirements.aps.yaml", Doc.malformed) :: [goodDocB]⟩
      = statusProcesses ⟨some [], [goodDocA]⟩ ++
        ReportEntry.parseError "001_bad_requirements.aps.yaml" :: statusProcesses ⟨some [], [goodDocB]⟩ :=
  ⟨by decide,
   status_report_isolates_malformed (some []) [goodDocA] [goodDocB]
     "001_bad_requirements.aps.yaml" (by decide)⟩

/-! ### Claim C8 — status resolution priority in `status_report` -/

/-- Claim C8: for a document whose top-level mapping has a `process` mapping
carrying a `name`, and whose `claim` entry (when present) is a mapping,
`aps_status` resolves the display status by exactly this priority: the
`process` mapping's own `status` value if the key is present, else the
`claim` mapping's `status` value if present, else the string `"unknown"`. -/
theorem resolve_status_priority (fn : String) (es pm : List (String × Yaml)) (nm : Yaml)
    (hproc : lookupList es "process" = some (.map pm))
    (hname : lookupList pm "name" = some nm)
    (hclaim : ∀ c, lookupList es "claim" = some c → ∃ cm, c = Yaml.map cm) :
    resolveDoc fn (.yaml (.map es)) = .ok nm
      (match lookupList pm "status" with
       | some v => v
       | none =>
         match lookupList es "claim" with
         | some (.map cm) =>
           (match lookupList cm "status" with
            | some v => v
            | none => .str "unknown")
         | _ => .str "unknown") := by
  cases hst : lookupList pm "status" with
  | some v => simp [resolveDoc, pyIndex, pyContains, hproc, hname, hst]
  | none =>
    cases hcl : lookupList es "claim" with
    | none => simp [resolveDoc, pyIndex, pyContains, hproc, hname, hst, hcl]
    | some c =>
      obtain ⟨cm, rfl⟩ := hclaim c hcl
      cases hcs : lookupList cm "status" with
      | some v => simp [resolveDoc, pyIndex, pyContains, hproc, hname, hst, hcl, hcs]
      | none => simp [resolveDoc, pyIndex, pyContains, hproc, hname, hst, hcl, hcs]

/-- Top-level mapping of a document with no `process.status` but a
`claim.status` fallback. -/
def claimFallbackDoc : List (String × Yaml) :=
  [("process", .map [("name", .str "X")]),
   ("claim", .map [("agent", .str "PM_Agent"), ("status", .str "claimed")])]

/-- Claim C8, witness: on a concrete document with no `process.status`, the
hypotheses hold and the resolution falls through to `claim.status`. -/
theorem resolve_status_priority_witness :
    lookupList claimFallbackDoc "process" = some (.map [("name", .str "X")]) ∧
    (∀ c, lookupList claimFallbackDoc "claim" = some c → ∃ cm, c = Yaml.map cm) ∧
    resolveDoc "001_X_requirements.aps.yaml" (.yaml (.map claimFallbackDoc))
      = .ok (.str "X") (.str "claimed") :=
  ⟨rfl,
   fun _c hc => ⟨[("agent", .str "PM_Agent"), ("status", .str "claimed")],
     (Option.some.inj hc).symm⟩,
   resolve_status_priority "001_X_requirements.aps.yaml" claimFallbackDoc
     [("name", .str "X")] (.str "X") rfl rfl
     (fun _c hc => ⟨[("agent", .str "PM_Agent"), ("status", .str "claimed")],
       (Option.some.inj hc).symm⟩)⟩

/-! ### The success path of `aps_handoff` -/

/-- The `process` mapping after a successful handoff: message appended,
status and `updated_at` overwritten, in the order the code performs them. -/
def handoffProcMap (pm : List (String × Yaml)) (msgs : List Yaml)
    (pid target nowIso fn : String) : List (String × Yaml) :=
  mapSet (mapSet (mapSet pm "messages"
      (.list (msgs ++ [handoffMessage pid target nowIso fn])))
    "status" (.str ("waiting_for_" ++ lowerStr target)))
    "updated_at" (.str (nowIso ++ "Z"))

/-- On a first match holding a mapping document whose `process` entry is a
mapping with an absent-or-list `messages` value, `aps_handoff` succeeds and
writes back exactly the updated document. -/
theorem aps_handoff_success (s : RegistryState) (pid target nowIso fn : String)
    (es pm : List (String × Yaml)) (msgs : List Yaml)
    (hm : (s.files.filter (handoffMatch pid)).head? = some (fn, .yaml (.map es)))
    (hp : lookupList es "process" = some (.map pm))
    (hmsg : oldMessages pm = some msgs) :
    aps_handoff s pid target nowIso =
      (.ok fn, ⟨s.roleFile, writeFile s.files fn
        (.yaml (.map (mapSet es "process" (.map (handoffProcMap pm msgs pid target nowIso fn)))))⟩) := by
  unfold oldMessages at hmsg
  cases hml : lookupList pm "messages" with
  | none =>
    rw [hml] at hmsg
    have hmsgs : msgs = [] := by
      cases hmsg
      rfl
    subst hmsgs
    simp [aps_handoff, hm, handoffDoc, hp, hml, handoffProcMap]
  | some v =>
    rw [hml] at hmsg
    cases v with
    | list l =>
      have hmsgs : msgs = l := by
        cases hmsg
        rfl
      subst hmsgs
      simp [aps_handoff, hm, handoffDoc, hp, hml, handoffProcMap]
    | str t => exact absurd hmsg (by simp)
    | map m => exact absurd hmsg (by simp)
    | null => exact absurd hmsg (by simp)

/-! ### Claim C4 — what a successful handoff does to the record -/

/-- Claim C4, counterexample: replaying `main()` — `aps_init` on an empty
registry returns the current role `"PM_Agent"`, then `aps_start` creates the
process and `aps_handoff` hands it to `"Architect_Agent"` — the appended
message's `from` field is the hardcoded string `"Current_Agent"`, not the
current role `"PM_Agent"`, refuting the claim that `from` equals the current
role. -/
theorem handoff_from_field_not_current_role :
    (aps_init tmplState 1).1 = some ("PM_Agent", "claude_1") ∧
    (aps_start tmplState "User Authentication System" "T").1
      = .ok "001_User_Authentication_System"
          "001_User_Authentication_System_requirements.aps.yaml" ∧
    (procMapAt (aps_handoff (aps_start tmplState "User Authentication System" "T").2
        "001_User_Authentication_System" "Architect_Agent" "T2").2
        "001_User_Authentication_System_requirements.aps.yaml").bind
        (fun pm => (lookupList pm "messages").bind
          (fun ms => match ms with
                     | .list [m] => msgField m "from"
                     | _ => none))
      = some (.str "Current_Agent") ∧
    "Current_Agent" ≠ "PM_Agent" := by
  refine ⟨rfl, rfl, rfl, by decide⟩

/-- Claim C4, amended: a successful `aps_handoff` sets the record's status to
`"waiting_for_"` plus the lower-cased target role, sets `updated_at` to the
current time, and grows the record's message list by exactly one, the new
message having `to` equal to the target role and `from` equal to the
hardcoded string `"Current_Agent"` (the code does not track the caller's
role). -/
theorem handoff_updates_record (s : RegistryState) (pid target nowIso fn : String)
    (es pm : List (String × Yaml)) (msgs : List Yaml)
    (hm : (s.files.filter (handoffMatch pid)).head? = some (fn, .yaml (.map es)))
    (hp : lookupList es "process" = some (.map pm))
    (hmsg : oldMessages pm = some msgs) :
    (aps_handoff s pid target nowIso).1 = .ok fn ∧
    procMapAt (aps_handoff s pid target nowIso).2 fn
      = some (handoffProcMap pm msgs pid target nowIso fn) ∧
    lookupList (handoffProcMap pm msgs pid target nowIso fn) "status"
      = some (.str ("waiting_for_" ++ lowerStr target)) ∧
    lookupList (handoffProcMap pm msgs pid target nowIso fn) "updated_at"
      = some (.str (nowIso ++ "Z")) ∧
    lookupList (handoffProcMap pm msgs pid target nowIso fn) "messages"
      = some (.list (msgs ++ [handoffMessage pid target nowIso fn])) ∧
    msgField (handoffMessage pid target nowIso fn) "to" = some (.str target) ∧
    msgField (handoffMessage pid target nowIso fn) "from" = some (.str "Current_Agent") := by
  rw [aps_handoff_success s pid target nowIso fn es pm msgs hm hp hmsg]
  refine ⟨rfl, ?_, ?_, ?_, ?_, rfl, rfl⟩
  · simp [procMapAt, docMapAt, readFile_writeFile_self, lookup_mapSet_self]
  · unfold handoffProcMap
    rw [lookup_mapSet_ne _ _ _ _ (by decide), lookup_mapSet_self]
  · unfold handoffProcMap
    rw [lookup_mapSet_self]
  · unfold handoffProcMap
    rw [lookup_mapSet_ne _ _ _ _ (by decide), lookup_mapSet_ne _ _ _ _ (by decide),
      lookup_mapSet_self]

/-- A registry with one process record (no messages yet) and one unrelated
file. -/
def c4State : RegistryState :=
  ⟨some [],
   [("001_X_requirements.aps.yaml",
     .yaml (.map [("process", .map [("name", .str "X"), ("id", .str "001_X"),
                                    ("created_at", .str "CZ"),
                                    ("status", .str "requirements_gathering")])])),
    ("notes.txt", .malformed)]⟩

/-- The `process` mapping of the record in `c4State`. -/
def c4Proc : List (String × Yaml) :=
  [("name", .str "X"), ("id", .str "001_X"), ("created_at", .str "CZ"),
   ("status", .str "requirements_gathering")]

/-- Claim C4, witness: the success hypotheses hold on `c4State` for pid
`001_X` and target `Architect_Agent`, and the updated record carries status
`waiting_for_architect_agent`, the new `updated_at`, and the one appended
message with its `to` and `from` fields. -/
theorem handoff_updates_record_witness :
    (c4State.files.filter (handoffMatch "001_X")).head?
      = some ("001_X_requirements.aps.yaml", .yaml (.map [("process", .map c4Proc)])) ∧
    lookupList [("process", Yaml.map c4Proc)] "process" = some (.map c4Proc) ∧
    oldMessages c4Proc = some [] ∧
    ((aps_handoff c4State "001_X" "Architect_Agent" "T").1
        = .ok "001_X_requirements.aps.yaml" ∧
     procMapAt (aps_handoff c4State "001_X" "Architect_Agent" "T").2
        "001_X_requirements.aps.yaml"
       = some (handoffProcMap c4Proc [] "001_X" "Architect_Agent" "T"
           "001_X_requirements.aps.yaml") ∧
     lookupList (handoffProcMap c4Proc [] "001_X" "Architect_Agent" "T"
         "001_X_requirements.aps.yaml") "status"
       = some (.str ("waiting_for_" ++ lowerStr "Architect_Agent")) ∧
     lookupList (handoffProcMap c4Proc [] "001_X" "Architect_Agent" "T"
         "001_X_requirements.aps.yaml") "updated_at"
       = some (.str ("T" ++ "Z")) ∧
     lookupList (handoffProcMap c4Proc [] "001_X" "Architect_Agent" "T"
         "001_X_requirements.aps.yaml") "messages"
       = some (.list ([] ++ [handoffMessage "001_X" "Architect_Agent" "T"
           "001_X_requirements.aps.yaml"])) ∧
     msgField (handoffMessage "001_X" "Architect_Agent" "T"
         "001_X_requirements.aps.yaml") "to" = some (.str "Architect_Agent") ∧
     msgField (handoffMessage "001_X" "Architect_Agent" "T"
         "001_X_requirements.aps.yaml") "from" = some (.str "Current_Agent")) :=
  ⟨rfl, rfl, rfl,
   handoff_updates_record c4State "001_X" "Architect_Agent" "T"
     "001_X_requirements.aps.yaml" [("process", .map c4Proc)] c4Proc [] rfl rfl rfl⟩

/-! ### Claim C9 — frame of a successful handoff -/

/-- Claim C9: a successful `aps_handoff` leaves the ledger untouched, leaves
every file other than the matched one reading the same as before, keeps
every top-level key of the matched document other than `process`, keeps
every `process` key other than `messages`, `status` and `updated_at` — in
particular `name`, `id` and `created_at` read unchanged. -/
theorem handoff_frame (s : RegistryState) (pid target nowIso fn : String)
    (es pm : List (String × Yaml)) (msgs : List Yaml)
    (hm : (s.files.filter (handoffMatch pid)).head? = some (fn, .yaml (.map es)))
    (hp : lookupList es "process" = some (.map pm))
    (hmsg : oldMessages pm = some msgs) :
    (aps_handoff s pid target nowIso).2.roleFile = s.roleFile ∧
    (∀ g, g ≠ fn →
      readFile (aps_handoff s pid target nowIso).2.files g = readFile s.files g) ∧
    docMapAt (aps_handoff s pid target nowIso).2 fn
      = some (mapSet es "process" (.map (handoffProcMap pm msgs pid target nowIso fn))) ∧
    (∀ k, k ≠ "process" →
      lookupList (mapSet es "process" (.map (handoffProcMap pm msgs pid target nowIso fn))) k
        = lookupList es k) ∧
    (∀ k, k ≠ "messages" → k ≠ "status" → k ≠ "updated_at" →
      lookupList (handoffProcMap pm msgs pid target nowIso fn) k = lookupList pm k) ∧
    lookupList (handoffProcMap pm msgs pid target nowIso fn) "name"
      = lookupList pm "name" ∧
    lookupList (handoffProcMap pm msgs pid target nowIso fn) "id"
      = lookupList pm "id" ∧
    lookupList (handoffProcMap pm msgs pid target nowIso fn) "created_at"
      = lookupList pm "created_at" := by
  have hframe : ∀ k, k ≠ "messages" → k ≠ "status" → k ≠ "updated_at" →
      lookupList (handoffProcMap pm msgs pid target nowIso fn) k = lookupList pm k := by
    intro k h1 h2 h3
    unfold handoffProcMap
    rw [lookup_mapSet_ne _ _ _ _ h3, lookup_mapSet_ne _ _ _ _ h2,
      lookup_mapSet_ne _ _ _ _ h1]
  rw [aps_handoff_success s pid target nowIso fn es pm msgs hm hp hmsg]
  refine ⟨rfl, fun g hg => readFile_writeFile_ne _ _ _ _ hg, ?_,
    fun k hk => lookup_mapSet_ne _ _ _ _ hk, hframe,
    hframe "name" (by decide) (by decide) (by decide),
    hframe "id" (by decide) (by decide) (by decide),
    hframe "created_at" (by decide) (by decide) (by decide)⟩
  simp [docMapAt, readFile_writeFile_self]

/-- A registry with two process records, an unrelated file and a one-line
ledger; the first record carries an extra `owner` field and a prior
message. -/
def c9State : RegistryState :=
  ⟨some ["3:Developer_Agent:claude_3:active"],
   [("001_X_requirements.aps.yaml",
     .yaml (.map [("process", .map [("name", .str "X"), ("id", .str "001_X"),
                                    ("created_at", .str "CZ"),
                                    ("owner", .str "PM_Agent"),
                                    ("messages", .list [.str "m0"]),
                                    ("status", .str "requirements_gathering")]),
                  ("claim", .map [("status", .str "claimed")])])),
    ("002_Y_requirements.aps.yaml",
     .yaml (.map [("process", .map [("name", .str "Y")])])),
    ("notes.txt", .malformed)]⟩

/-- The `process` mapping of the first record in `c9State`. -/
def c9Proc : List (String × Yaml) :=
  [("name", .str "X"), ("id", .str "001_X"), ("created_at", .str "CZ"),
   ("owner", .str "PM_Agent"), ("messages", .list [.str "m0"]),
   ("status", .str "requirements_gathering")]

/-- Top-level mapping of the first record in `c9State`. -/
def c9Top : List (String × Yaml) :=
  [("process", .map c9Proc), ("claim", .map [("status", .str "claimed")])]

/-- Claim C9, witness: the success hypotheses hold on `c9State`, and the
frame conclusion follows there — the ledger, the second record, the `claim`
entry and the `name`/`id`/`created_at`/`owner` fields all read unchanged. -/
theorem handoff_frame_witness :
    (c9State.files.filter (handoffMatch "001_X")).head?
      = some ("001_X_requirements.aps.yaml", .yaml (.map c9Top)) ∧
    lookupList c9Top "process" = some (.map c9Proc) ∧
    oldMessages c9Proc = some [.str "m0"] ∧
    ((aps_handoff c9State "001_X" "QA_Agent" "T").2.roleFile = c9State.roleFile ∧
     (∀ g, g ≠ "001_X_requirements.aps.yaml" →
       readFile (aps_handoff c9State "001_X" "QA_Agent" "T").2.files g
         = readFile c9State.files g) ∧
     docMapAt (aps_handoff c9State "001_X" "QA_Agent" "T").2 "001_X_requirements.aps.yaml"
       = some (mapSet c9Top "process"
           (.map (handoffProcMap c9Proc [.str "m0"] "001_X" "QA_Agent" "T"
             "001_X_requirements.aps.yaml"))) ∧
     (∀ k, k ≠ "process" →
       lookupList (mapSet c9Top "process"
           (.map (handoffProcMap c9Proc [.str "m0"] "001_X" "QA_Agent" "T"
             "001_X_requirements.aps.yaml"))) k
         = lookupList c9Top k) ∧
     (∀ k, k ≠ "messages" → k ≠ "status" → k ≠ "updated_at" →
       lookupList (handoffProcMap c9Proc [.str "m0"] "001_X" "QA_Agent" "T"
           "001_X_requirements.aps.yaml") k = lookupList c9Proc k) ∧
     lookupList (handoffProcMap c9Proc [.str "m0"] "001_X" "QA_Agent" "T"
         "001_X_requirements.aps.yaml") "name" = lookupList c9Proc "name" ∧
     lookupList (handoffProcMap c9Proc [.str "m0"] "001_X" "QA_Agent" "T"
         "001_X_requirements.aps.yaml") "id" = lookupList c9Proc "id" ∧
     lookupList (handoffProcMap c9Proc [.str "m0"] "001_X" "QA_Agent" "T"
         "001_X_requirements.aps.yaml") "created_at" = lookupList c9Proc "created_at") :=
  ⟨rfl, rfl, rfl,
   handoff_frame c9State "001_X" "QA_Agent" "T" "001_X_requirements.aps.yaml"
     c9Top c9Proc [.str "m0"] rfl rfl rfl⟩

/-! ### Claim C10 — only the first matching file is updated -/

/-- Claim C10: when the directory listing is any prefix of non-matching
files, then a first match, then arbitrary further files (which may match
too), a successful `aps_handoff` rewrites exactly that first match in place
and every other file — the later matches included — is left unchanged. -/
theorem handoff_updates_first_match (rf : Option (List String))
    (pre post : List (String × Doc)) (fn : String) (d d' : Doc)
    (pid target nowIso : String)
    (hpre : ∀ p ∈ pre, handoffMatch pid p = false)
    (hfn : handoffMatch pid (fn, d) = true)
    (hd : handoffDoc d pid target nowIso fn = some d') :
    aps_handoff ⟨rf, pre ++ (fn, d) :: post⟩ pid target nowIso
      = (.ok fn, ⟨rf, pre ++ (fn, d') :: post⟩) := by
  have hhead := filter_head_first (handoffMatch pid) pre post (fn, d) hpre hfn
  have hname : ∀ p ∈ pre, p.1 ≠ fn := by
    intro p hp heq
    have hfalse := hpre p hp
    have : handoffMatch pid p = handoffMatch pid (fn, d) := by
      unfold handoffMatch
      rw [heq]
    rw [this, hfn] at hfalse
    exact Bool.noConfusion hfalse
  have hw := writeFile_middle pre post fn d d' hname
  simp only [aps_handoff]
  rw [hhead]
  simp only [hd, hw]

/-- A first matching record between a non-matching file and a second
matching record. -/
def c10d : Doc := .yaml (.map [("process", .map [("name", .str "X")])])

/-- The second matching record of the C10 scenario. -/
def c10post : List (String × Doc) :=
  [("001_X_design.aps.yaml", .yaml (.map [("process", .map [("name", .str "X design")])]))]

/-- The document the C10 handoff writes back. -/
def c10d' : Doc :=
  .yaml (.map [("process", .map [("name", .str "X"),
    ("messages", .list [handoffMessage "001_X" "QA_Agent" "T" "001_X_requirements.aps.yaml"]),
    ("status", .str ("waiting_for_" ++ lowerStr "QA_Agent")),
    ("updated_at", .str "TZ")])])

/-- Claim C10, witness: with a non-matching file first and a second matching
file last, the hypotheses hold and the handoff rewrites only the first
match, leaving the second matching record in place unchanged. -/
theorem handoff_updates_first_match_witness :
    (∀ p ∈ [(("notes.txt" : String), Doc.malformed)], handoffMatch "001_X" p = false) ∧
    handoffMatch "001_X" ("001_X_requirements.aps.yaml", c10d) = true ∧
    handoffDoc c10d "001_X" "QA_Agent" "T" "001_X_requirements.aps.yaml" = some c10d' ∧
    aps_handoff ⟨some [], [("notes.txt", Doc.malformed)] ++
        ("001_X_requirements.aps.yaml", c10d) :: c10post⟩ "001_X" "QA_Agent" "T"
      = (.ok "001_X_requirements.aps.yaml",
         ⟨some [], [("notes.txt", Doc.malformed)] ++
           ("001_X_requirements.aps.yaml", c10d') :: c10post⟩) :=
  ⟨by decide, by decide, rfl,
   handoff_updates_first_match (some []) [("notes.txt", Doc.malformed)] c10post
     "001_X_requirements.aps.yaml" c10d c10d' "001_X" "QA_Agent" "T"
     (by decide) (by decide) rfl⟩

end APS
